import Mathlib

/-
Verification of the OsdagLatexEnv discovery shim.

The repository holds two Python variants of one class, `OsdagLatexEnv`
(files osdag-latex-env/__main__.py and osdag_latex_env/__main__.py).
The class scans a conventionally-located binary directory, builds a
registry mapping lowercase extension-stripped file stems to absolute
paths, and exposes lookup and invocation helpers.

Shallow embedding choices:
- a filesystem path is a list of components (`LPath`); joining with `/`
  is list append;
- the Python dict with string keys is an association list kept
  key-unique by `dictInsert` (assignment replaces in place, otherwise
  appends, preserving insertion order exactly as CPython dicts do);
- the state of the binary directory at construction time is a
  `BinDirState`: an existence flag plus the entries `iterdir` yields, in
  enumeration order, each tagged with whether it is a regular file;
- `subprocess.run` is modelled by returning the `Invocation` (resolved
  executable path plus argument list) instead of spawning;
- `os.environ` is a total map `String → Option String`; `configure_tex`
  is a pure transformer on it;
- exceptions (`RuntimeError`) are `Except String`.
All definitions are translated from the Python source; the two
definitions whose doc comments say so follow the spec's words instead,
for comparison with the source.
-/

/-- A filesystem path as its list of components; `p / "x"` is `p ++ ["x"]`. -/
abbrev LPath := List String

/-- Index of the last occurrence of `c` in `cs`, as Python str.rfind. -/
def rfindIdx (cs : List Char) (c : Char) : Option Nat :=
  match cs with
  | [] => none
  | x :: xs =>
    match rfindIdx xs c with
    | some i => some (i + 1)
    | none => if x = c then some 0 else none

/-- Python pathlib stem: the final component without its last suffix.
A suffix exists only when the last dot is neither the first nor the
final character (so ".bashrc" and "a." keep their dot). -/
def pyStem (name : String) : String :=
  let cs := name.toList
  match rfindIdx cs '.' with
  | some i => if 0 < i ∧ i < cs.length - 1 then String.mk (cs.take i) else name
  | none => name

/-- Python str.lower, as Lean's String.toLower (map Char.toLower over
the characters), written structurally so that it reduces in the kernel. -/
def pyLower (s : String) : String :=
  String.mk (s.toList.map Char.toLower)

/-- One entry yielded by iterdir: its filename and whether is_file() holds. -/
structure FileEntry where
  name : String
  isFile : Bool
deriving DecidableEq, Repr

/-- The observable state of the binary directory at construction time. -/
structure BinDirState where
  dirExists : Bool
  entries : List FileEntry
deriving DecidableEq, Repr

/-- Python dict assignment d[k] = v: replace in place when the key is
present, else append, keeping insertion order. -/
def dictInsert (d : List (String × LPath)) (k : String) (v : LPath) :
    List (String × LPath) :=
  if d.any (fun kv => kv.1 = k) then
    d.map (fun kv => if kv.1 = k then (k, v) else kv)
  else
    d ++ [(k, v)]

/-- Python dict lookup d[k] (first binding wins; unique by construction). -/
def dictGet? (d : List (String × LPath)) (k : String) : Option LPath :=
  match d with
  | [] => none
  | kv :: rest => if kv.1 = k then some kv.2 else dictGet? rest k

/-- Python membership test k in d. -/
def hasKey (d : List (String × LPath)) (k : String) : Bool :=
  d.any (fun kv => kv.1 = k)

/-- The for-loop body of _discover_binaries: fold the entries into the
registry, keying each regular file by its lowercase stem. -/
def discoverLoop (binDir : LPath) :
    List FileEntry → List (String × LPath) → List (String × LPath)
  | [], bins => bins
  | p :: rest, bins =>
    discoverLoop binDir rest
      (if p.isFile then
        dictInsert bins (pyLower (pyStem p.name)) (binDir ++ [p.name])
      else bins)

/-- OsdagLatexEnv._discover_binaries: empty when the directory does not
exist, else the fold over iterdir. Identical in both variants. -/
def discover_binaries (binDir : LPath) (fs : BinDirState) :
    List (String × LPath) :=
  if !fs.dirExists then [] else discoverLoop binDir fs.entries []

/-- The OsdagLatexEnv instance attributes set by __init__. -/
structure OsdagLatexEnv where
  prefixPath : LPath
  system : String
  bin_dir : LPath
  tex_root : LPath
  bin : List (String × LPath)
deriving DecidableEq, Repr

/-- _detect_bin_dir of the dash variant (osdag-latex-env/__main__.py):
Library/bin under the prefix on Windows, bin otherwise. -/
def detect_bin_dir_dash (system : String) (p : LPath) : LPath :=
  if system = "windows" then p ++ ["Library", "bin"] else p ++ ["bin"]

/-- _detect_tex_root of the dash variant. -/
def detect_tex_root_dash (system : String) (p : LPath) : LPath :=
  if system = "windows" then p ++ ["Library", "share", "osdag-latex-env"]
  else p ++ ["share", "osdag-latex-env"]

/-- _detect_bin_dir of the underscore variant (osdag_latex_env/__main__.py):
Library/share/osdag_latex_env/bin under the prefix on Windows,
share/osdag_latex_env/bin otherwise. -/
def detect_bin_dir_underscore (system : String) (p : LPath) : LPath :=
  if system = "windows" then
    p ++ ["Library", "share", "osdag_latex_env", "bin"]
  else p ++ ["share", "osdag_latex_env", "bin"]

/-- _detect_tex_root of the underscore variant. -/
def detect_tex_root_underscore (system : String) (p : LPath) : LPath :=
  if system = "windows" then p ++ ["Library", "share", "osdag_latex_env"]
  else p ++ ["share", "osdag_latex_env"]

/-- __init__ of the dash variant, parameterized by sys.prefix,
platform.system().lower() and the binary directory's state. -/
def OsdagLatexEnv.constructDash (p : LPath) (sys : String)
    (fs : BinDirState) : OsdagLatexEnv :=
  let bd := detect_bin_dir_dash sys p
  { prefixPath := p
    system := sys
    bin_dir := bd
    tex_root := detect_tex_root_dash sys p
    bin := discover_binaries bd fs }

/-- __init__ of the underscore variant. -/
def OsdagLatexEnv.constructUnderscore (p : LPath) (sys : String)
    (fs : BinDirState) : OsdagLatexEnv :=
  let bd := detect_bin_dir_underscore sys p
  { prefixPath := p
    system := sys
    bin_dir := bd
    tex_root := detect_tex_root_underscore sys p
    bin := discover_binaries bd fs }

/-- The available property: bool(self.bin), i.e. the registry is
non-empty. Identical in both variants. -/
def OsdagLatexEnv.available (e : OsdagLatexEnv) : Bool :=
  !e.bin.isEmpty

/-- has: membership of name.lower() among the registry keys. -/
def OsdagLatexEnv.has (e : OsdagLatexEnv) (name : String) : Bool :=
  hasKey e.bin (pyLower name)

/-- get: registry lookup of name.lower(); a miss raises RuntimeError
with the f-string message naming the requested tool. -/
def OsdagLatexEnv.get (e : OsdagLatexEnv) (name : String) :
    Except String LPath :=
  match dictGet? e.bin (pyLower name) with
  | some p => Except.ok p
  | none => Except.error (name ++ " not found in OsdagLatexEnv")

/-- get_pdflatex: lookup of the primary tool. -/
def OsdagLatexEnv.get_pdflatex (e : OsdagLatexEnv) : Except String LPath :=
  e.get "pdflatex"

/-- get_bibtex (dash variant only): lookup of the bibliography tool. -/
def OsdagLatexEnv.get_bibtex (e : OsdagLatexEnv) : Except String LPath :=
  e.get "bibtex"

/-- require (dash variant): raise RuntimeError when not available. -/
def OsdagLatexEnv.require (e : OsdagLatexEnv) : Except String Unit :=
  if !e.available then
    Except.error
      "No LaTeX binaries found in the current environment. Please install osdag-latex-env."
  else Except.ok ()

/-- A child-process invocation: the resolved executable path and the
argument list handed to subprocess.run after it (argv = exe :: args). -/
structure Invocation where
  exe : LPath
  args : List String
deriving DecidableEq, Repr

/-- run (dash variant): resolve name via get, then spawn the executable
with the given arguments (args defaults to the empty list). -/
def OsdagLatexEnv.run (e : OsdagLatexEnv) (name : String)
    (args : Option (List String)) : Except String Invocation :=
  let args := args.getD []
  match e.get name with
  | Except.ok exe => Except.ok { exe := exe, args := args }
  | Except.error msg => Except.error msg

/-- pdflatex (dash variant): build args as extra_args (when truthy)
followed by the tex file, then delegate to run with the primary tool. -/
def OsdagLatexEnv.pdflatex (e : OsdagLatexEnv) (tex_file : String)
    (extra_args : Option (List String)) : Except String Invocation :=
  let args : List String := []
  let args :=
    match extra_args with
    | some xs => if xs.isEmpty then args else args ++ xs
    | none => args
  let args := args ++ [tex_file]
  e.run "pdflatex" (some args)

/-- The process environment os.environ as a total map from variable
names to optional values. -/
def Env : Type := String → Option String

/-- os.environ[k] = v. -/
def envSet (env : Env) (k v : String) : Env :=
  fun q => if q = k then some v else env q

/-- Host parameters configure_tex depends on: os.pathsep and the
separator str(Path) renders between components. -/
structure OsParams where
  pathSep : String
  dirSep : String

/-- str() rendering of a path: components joined by the host separator. -/
def renderPath (sep : String) (p : LPath) : String :=
  String.intercalate sep p

/-- Python str.replace of every backslash by a forward slash. -/
def replaceBackslash (s : String) : String :=
  String.mk (s.toList.map (fun c => if c = '\\' then '/' else c))

/-- configure_tex (underscore variant): overwrite TEXMFHOME with the
texmf-dist path; prepend that path plus os.pathsep to TEXINPUTS; then
prepend the three style-package directories, semicolon-joined, to
TEXINPUTS again. -/
def OsdagLatexEnv.configure_tex (e : OsdagLatexEnv) (os : OsParams)
    (env : Env) : Env :=
  let texmf_dist := renderPath os.dirSep (e.tex_root ++ ["texmf-dist"])
  let env := envSet env "TEXMFHOME" texmf_dist
  let env := envSet env "TEXINPUTS"
    (texmf_dist ++ os.pathSep ++ ((env "TEXINPUTS").getD ""))
  let sty_pkgs := replaceBackslash
    (renderPath os.dirSep (e.tex_root ++ ["texmf-dist", "tex", "latex"]))
  let pkg_resources :=
    [sty_pkgs ++ "/amsmath", sty_pkgs ++ "/graphics", sty_pkgs ++ "/needspace"]
  envSet env "TEXINPUTS"
    (String.intercalate ";" pkg_resources ++ ";" ++ ((env "TEXINPUTS").getD ""))

/-- Follows the spec's words, for comparison with detect_bin_dir_underscore:
the claimed executable-directory convention with a trailing
architecture-triple component below the product's bin directory. -/
def detect_bin_dir_specLayout (system : String) (p : LPath)
    (archTriple : String) : LPath :=
  if system = "windows" then
    p ++ ["Library", "share", "osdag_latex_env", "bin", archTriple]
  else p ++ ["share", "osdag_latex_env", "bin", archTriple]

/-- Follows the spec's words, for comparison with OsdagLatexEnv.available:
the stricter availability variant, true when the data root resolved, the
primary executable resolved, and the version-query spawn succeeded. -/
def availableStrictSpec (dataRootResolved versionProbeOk : Bool)
    (e : OsdagLatexEnv) : Bool :=
  dataRootResolved && e.has "pdflatex" && versionProbeOk

/-- A sample binary-directory state: two regular files (one with mixed
case and an extension) and one subdirectory. -/
def sampleFs : BinDirState :=
  { dirExists := true
    entries :=
      [{ name := "PdfLatex.exe", isFile := true }
       , { name := "bibtex", isFile := true }
       , { name := "texmf", isFile := false }] }

/-- A sample constructed instance over sampleFs. -/
def sampleEnv : OsdagLatexEnv :=
  OsdagLatexEnv.constructDash ["opt", "conda"] "linux" sampleFs

/-- A binary-directory state holding only the bibliography tool. -/
def bibOnlyFs : BinDirState :=
  { dirExists := true, entries := [{ name := "bibtex", isFile := true }] }

/-- An instance whose registry is non-empty but lacks the primary tool. -/
def bibOnlyEnv : OsdagLatexEnv :=
  OsdagLatexEnv.constructUnderscore ["opt", "conda"] "linux" bibOnlyFs

/-- A state for a binary directory that does not exist. -/
def missingFs : BinDirState :=
  { dirExists := false
    entries := [{ name := "ghost", isFile := true }] }

/-- An instance constructed while the binary directory is absent. -/
def missingEnv : OsdagLatexEnv :=
  OsdagLatexEnv.constructUnderscore ["opt", "conda"] "windows" missingFs

/-- A state with two files whose lowercase stems collide. -/
def collideFs : BinDirState :=
  { dirExists := true
    entries :=
      [{ name := "tool.exe", isFile := true }
       , { name := "tool.bat", isFile := true }] }

/-- A sample process environment with a PATH entry and a prior
TEXINPUTS value. -/
def sampleProcEnv : Env :=
  fun k =>
    if k = "PATH" then some "/usr/bin"
    else if k = "TEXINPUTS" then some "/old/texinputs"
    else none

/-- Among the directory entries, the last regular file whose lowercase
stem is k, if any: the entry whose path the registry keeps for k. -/
def lastStemMatch (k : String) : List FileEntry → Option FileEntry
  | [] => none
  | en :: rest =>
    match lastStemMatch k rest with
    | some r => some r
    | none =>
      if en.isFile = true ∧ pyLower (pyStem en.name) = k then some en
      else none

lemma dictGet?_replace (d : List (String × LPath)) (k k' : String)
    (v : LPath) :
    dictGet? (d.map (fun kv => if kv.1 = k then (k, v) else kv)) k' =
      if k = k' then
        (if d.any (fun kv => kv.1 = k) then some v else none)
      else dictGet? d k' := by
  induction d with
  | nil => simp [dictGet?]
  | cons kv d ih =>
    by_cases h1 : kv.1 = k
    · by_cases h2 : k = k'
      · subst h2
        simp [dictGet?, h1]
      · have h3 : ¬ kv.1 = k' := by
          rw [h1]
          exact h2
        simp [dictGet?, h1, h2, h3, ih]
    · by_cases h2 : kv.1 = k'
      · have h3 : ¬ k = k' := fun he => h1 (by rw [he, h2])
        have h4 : ¬ k' = k := fun he => h3 he.symm
        simp [dictGet?, h1, h2, h3, h4]
      · have hdec : decide (kv.1 = k) = false := decide_eq_false h1
        simp only [List.map_cons, if_neg h1, dictGet?, if_neg h2, ih,
          List.any_cons, hdec, Bool.false_or]

lemma dictGet?_append_single (d : List (String × LPath)) (k k' : String)
    (v : LPath) (h : d.any (fun kv => kv.1 = k) = false) :
    dictGet? (d ++ [(k, v)]) k' =
      if k = k' then some v else dictGet? d k' := by
  induction d with
  | nil => simp [dictGet?]
  | cons kv d ih =>
    rw [List.any_cons] at h
    obtain ⟨h1, h2⟩ := Bool.or_eq_false_iff.mp h
    have hk : ¬ kv.1 = k := of_decide_eq_false h1
    by_cases h3 : kv.1 = k'
    · have h4 : ¬ k = k' := fun he => hk (by rw [he, h3])
      simp [dictGet?, h3, h4]
    · simp [dictGet?, h3, ih h2]

lemma dictGet?_dictInsert (d : List (String × LPath)) (k k' : String)
    (v : LPath) :
    dictGet? (dictInsert d k v) k' =
      if k = k' then some v else dictGet? d k' := by
  unfold dictInsert
  cases hb : d.any (fun kv => kv.1 = k) with
  | true =>
    simp only [hb, if_true]
    rw [dictGet?_replace, hb]
    simp
  | false =>
    simp only [hb, Bool.false_eq_true, if_false]
    exact dictGet?_append_single d k k' v hb

lemma hasKey_eq_isSome (d : List (String × LPath)) (k : String) :
    hasKey d k = (dictGet? d k).isSome := by
  induction d with
  | nil => rfl
  | cons kv d ih =>
    by_cases h : kv.1 = k
    · simp [hasKey, List.any_cons, dictGet?, h]
    · simp [hasKey, List.any_cons, dictGet?, h]
      simpa [hasKey] using ih

lemma mem_dictInsert {kv : String × LPath} {d : List (String × LPath)}
    {k : String} {v : LPath} (h : kv ∈ dictInsert d k v) :
    kv ∈ d ∨ kv = (k, v) := by
  unfold dictInsert at h
  by_cases ha : d.any (fun p => p.1 = k)
  · rw [if_pos ha] at h
    obtain ⟨a, haMem, hEq⟩ := List.mem_map.mp h
    by_cases hk : a.1 = k
    · right
      rw [← hEq, if_pos hk]
    · left
      rw [← hEq, if_neg hk]
      exact haMem
  · rw [if_neg ha] at h
    rcases List.mem_append.mp h with h' | h'
    · exact Or.inl h'
    · exact Or.inr (List.mem_singleton.mp h')

lemma discoverLoop_mem {binDir : LPath} {entries : List FileEntry}
    {bins : List (String × LPath)} {kv : String × LPath}
    (h : kv ∈ discoverLoop binDir entries bins) :
    kv ∈ bins ∨ ∃ en, en ∈ entries ∧ en.isFile = true ∧
      kv.1 = pyLower (pyStem en.name) ∧ kv.2 = binDir ++ [en.name] := by
  induction entries generalizing bins with
  | nil => exact Or.inl h
  | cons en rest ih =>
    simp only [discoverLoop] at h
    rcases ih h with hb | ⟨en', hmem, hf, h1, h2⟩
    · by_cases hf : en.isFile = true
      · rw [if_pos hf] at hb
        rcases mem_dictInsert hb with hb' | hb'
        · exact Or.inl hb'
        · refine Or.inr ⟨en, List.mem_cons_self _ _, hf, ?_, ?_⟩
          · rw [hb']
          · rw [hb']
      · rw [if_neg hf] at hb
        exact Or.inl hb
    · exact Or.inr ⟨en', List.mem_cons_of_mem _ hmem, hf, h1, h2⟩

lemma discoverLoop_lookup (binDir : LPath) (entries : List FileEntry)
    (bins : List (String × LPath)) (k : String) :
    dictGet? (discoverLoop binDir entries bins) k =
      match lastStemMatch k entries with
      | some en => some (binDir ++ [en.name])
      | none => dictGet? bins k := by
  induction entries generalizing bins with
  | nil => rfl
  | cons en rest ih =>
    simp only [discoverLoop, lastStemMatch]
    rw [ih]
    cases h : lastStemMatch k rest with
    | some r => simp
    | none =>
      by_cases hf : en.isFile = true
      · by_cases hk : pyLower (pyStem en.name) = k
        · simp [hf, hk, dictGet?_dictInsert]
        · simp [hf, hk, dictGet?_dictInsert]
      · simp [hf]

lemma discover_lookup (binDir : LPath) (fs : BinDirState) (k : String)
    (h : fs.dirExists = true) :
    dictGet? (discover_binaries binDir fs) k =
      (lastStemMatch k fs.entries).map (fun en => binDir ++ [en.name]) := by
  rw [discover_binaries, h]
  simp only [Bool.not_true, Bool.false_eq_true, if_false]
  rw [discoverLoop_lookup]
  cases lastStemMatch k fs.entries <;> simp [dictGet?]

lemma discover_binaries_of_not_exists (binDir : LPath) (fs : BinDirState)
    (h : fs.dirExists = false) : discover_binaries binDir fs = [] := by
  rw [discover_binaries, h]
  rfl

lemma lastStemMatch_isSome (k : String) (l : List FileEntry) :
    (lastStemMatch k l).isSome = true ↔
      ∃ en, en ∈ l ∧ en.isFile = true ∧ pyLower (pyStem en.name) = k := by
  induction l with
  | nil => simp [lastStemMatch]
  | cons en rest ih =>
    simp only [lastStemMatch]
    cases h : lastStemMatch k rest with
    | some r =>
      simp only [Option.isSome_some, true_iff]
      obtain ⟨en', hm, hf, hk⟩ := ih.mp (by rw [h]; rfl)
      exact ⟨en', List.mem_cons_of_mem _ hm, hf, hk⟩
    | none =>
      rw [h] at ih
      simp only [Option.isSome_none, Bool.false_eq_true, false_iff] at ih
      by_cases hc : en.isFile = true ∧ pyLower (pyStem en.name) = k
      · simp only [if_pos hc, Option.isSome_some, true_iff]
        exact ⟨en, List.mem_cons_self _ _, hc.1, hc.2⟩
      · simp only [if_neg hc, Option.isSome_none, Bool.false_eq_true,
          false_iff]
        rintro ⟨en', hm, hf, hk⟩
        rcases List.mem_cons.mp hm with rfl | hm'
        · exact hc ⟨hf, hk⟩
        · exact ih ⟨en', hm', hf, hk⟩


/-- C1: Get on a name present in the registry (after lowercasing)
returns exactly the path stored in the registry for that name; Get on an
absent name fails with a not-found error whose message contains the
requested name. -/
theorem get_present_path_absent_error (e : OsdagLatexEnv) (name : String) :
    (e.has name = true →
      ∃ p, dictGet? e.bin (pyLower name) = some p ∧
        e.get name = Except.ok p) ∧
    (e.has name = false →
      e.get name = Except.error (name ++ " not found in OsdagLatexEnv")) := by
  constructor
  · intro h
    rw [OsdagLatexEnv.has, hasKey_eq_isSome] at h
    obtain ⟨p, hp⟩ := Option.isSome_iff_exists.mp h
    refine ⟨p, hp, ?_⟩
    rw [OsdagLatexEnv.get, hp]
  · intro h
    rw [OsdagLatexEnv.has, hasKey_eq_isSome] at h
    have hn : dictGet? e.bin (pyLower name) = none := by
      cases hq : dictGet? e.bin (pyLower name) with
      | none => rfl
      | some p =>
        rw [hq] at h
        simp at h
    rw [OsdagLatexEnv.get, hn]

/-- Witness for C1: a present lookup in the sample instance yields the
stored path, an absent lookup yields the naming error. -/
theorem get_present_path_absent_error_witness :
    sampleEnv.get "PDFLATEX" =
      Except.ok ["opt", "conda", "bin", "PdfLatex.exe"] ∧
    sampleEnv.get "latexmk" =
      Except.error ("latexmk" ++ " not found in OsdagLatexEnv") := by
  refine ⟨?_, (get_present_path_absent_error sampleEnv "latexmk").2
    (by decide)⟩
  obtain ⟨p, hp, hg⟩ :=
    (get_present_path_absent_error sampleEnv "PDFLATEX").1 (by decide)
  have hp2 : dictGet? sampleEnv.bin (pyLower "PDFLATEX") =
      some ["opt", "conda", "bin", "PdfLatex.exe"] := by decide
  have hpl : p = ["opt", "conda", "bin", "PdfLatex.exe"] :=
    Option.some.inj (hp.symm.trans hp2)
  rw [hg, hpl]

/-- C2: for a constructed instance whose directory exists, Has(name) is
true exactly when some regular file among the entries has lowercase stem
equal to the lowercasing of name, so Has agrees on every case
permutation of a name. -/
theorem has_iff_stem_match (e : OsdagLatexEnv) (fs : BinDirState)
    (name other : String)
    (hbin : e.bin = discover_binaries e.bin_dir fs)
    (hex : fs.dirExists = true) :
    (e.has name = true ↔ ∃ en, en ∈ fs.entries ∧ en.isFile = true ∧
        pyLower (pyStem en.name) = pyLower name) ∧
    (pyLower name = pyLower other → e.has name = e.has other) := by
  have key : ∀ n : String,
      e.has n = (lastStemMatch (pyLower n) fs.entries).isSome := by
    intro n
    rw [OsdagLatexEnv.has, hasKey_eq_isSome, hbin,
      discover_lookup _ _ _ hex]
    cases lastStemMatch (pyLower n) fs.entries with
    | none => rfl
    | some r => rfl
  constructor
  · rw [key]
    exact lastStemMatch_isSome _ _
  · intro hlow
    rw [key, key, hlow]

/-- Witness for C2: the mixed-case file PdfLatex.exe is found under the
all-caps name, and the lookup is case-insensitive. -/
theorem has_iff_stem_match_witness :
    sampleEnv.has "PDFLATEX" = true ∧
    sampleEnv.has "pdflatex" = sampleEnv.has "PDFLATEX" := by
  constructor
  · exact (has_iff_stem_match sampleEnv sampleFs "PDFLATEX" "PDFLATEX"
      rfl rfl).1.mpr
      ⟨{ name := "PdfLatex.exe", isFile := true }, by decide, rfl,
        by decide⟩
  · exact (has_iff_stem_match sampleEnv sampleFs "pdflatex" "PDFLATEX"
      rfl rfl).2 (by decide)

/-- C3: every path stored in a constructed registry is a regular file
directly inside the resolved executable directory, and the registry is
empty when that directory does not exist. The embedding is purely
functional: no operation of the class returns a modified instance, so
the registry is fixed at construction. -/
theorem registry_only_dir_files (e : OsdagLatexEnv) (fs : BinDirState)
    (hbin : e.bin = discover_binaries e.bin_dir fs) :
    (fs.dirExists = false → e.bin = []) ∧
    (∀ kv ∈ e.bin, ∃ en, en ∈ fs.entries ∧ en.isFile = true ∧
      kv.2 = e.bin_dir ++ [en.name]) := by
  constructor
  · intro h
    rw [hbin]
    exact discover_binaries_of_not_exists _ _ h
  · intro kv hkv
    rw [hbin, discover_binaries] at hkv
    cases hex : fs.dirExists with
    | false =>
      rw [hex] at hkv
      simp at hkv
    | true =>
      rw [hex] at hkv
      simp only [Bool.not_true, Bool.false_eq_true, if_false] at hkv
      rcases discoverLoop_mem hkv with h0 | ⟨en, hm, hf, h1, h2⟩
      · cases h0
      · exact ⟨en, hm, hf, h2⟩

/-- Witness for C3: constructing over an absent directory leaves the
registry empty. -/
theorem registry_only_dir_files_witness : missingEnv.bin = [] :=
  (registry_only_dir_files missingEnv missingFs rfl).1 rfl

/-- C4: the simple available property is true exactly when the registry
is non-empty; when the executable directory does not exist the instance
is unavailable and its registry is empty. -/
theorem available_iff_nonempty (e : OsdagLatexEnv) (fs : BinDirState)
    (hbin : e.bin = discover_binaries e.bin_dir fs) :
    (e.available = true ↔ e.bin ≠ []) ∧
    (fs.dirExists = false → e.available = false ∧ e.bin = []) := by
  have hiff : e.available = true ↔ e.bin ≠ [] := by
    rw [OsdagLatexEnv.available]
    cases e.bin with
    | nil => simp
    | cons kv d => simp
  refine ⟨hiff, fun h => ?_⟩
  have hnil : e.bin = [] := by
    rw [hbin]
    exact discover_binaries_of_not_exists _ _ h
  constructor
  · rw [OsdagLatexEnv.available, hnil]
    rfl
  · exact hnil

/-- Witness for C4: the instance built over an absent directory is
unavailable with an empty registry. -/
theorem available_iff_nonempty_witness :
    missingEnv.available = false ∧ missingEnv.bin = [] :=
  (available_iff_nonempty missingEnv missingFs rfl).2 rfl

/-- C5: require returns normally exactly when available is true, and
raises the no-binaries RuntimeError otherwise; it is a pure check that
leaves the instance unchanged. -/
theorem require_ok_iff_available (e : OsdagLatexEnv) :
    (e.available = true → e.require = Except.ok ()) ∧
    (e.available = false → e.require = Except.error
      "No LaTeX binaries found in the current environment. Please install osdag-latex-env.") := by
  constructor
  · intro h
    simp [OsdagLatexEnv.require, h]
  · intro h
    simp [OsdagLatexEnv.require, h]

/-- Witness for C5: require succeeds on the populated sample instance
and raises on the instance without binaries. -/
theorem require_ok_iff_available_witness :
    sampleEnv.require = Except.ok () ∧
    missingEnv.require = Except.error
      "No LaTeX binaries found in the current environment. Please install osdag-latex-env." :=
  ⟨(require_ok_iff_available sampleEnv).1 (by decide),
   (require_ok_iff_available missingEnv).2 (by decide)⟩

/-- C6: pdflatex(texFile, extraArgs) delegates to run on the primary
tool with argument list extraArgs followed by texFile, in that order,
for every extra-argument list and also when extraArgs is omitted. -/
theorem pdflatex_appends_texfile (e : OsdagLatexEnv) (t : String)
    (xs : List String) :
    e.pdflatex t (some xs) = e.run "pdflatex" (some (xs ++ [t])) ∧
    e.pdflatex t none = e.run "pdflatex" (some [t]) := by
  constructor
  · rw [OsdagLatexEnv.pdflatex]
    cases xs with
    | nil => simp
    | cons a l => simp
  · rfl

/-- C7 counterexample: the underscore variant's executable directory has
no architecture-triple component below the product's bin directory; on a
concrete prefix no choice of triple makes the spec's layout match the
code's. -/
theorem bin_dir_lacks_arch_triple :
    ¬ ∃ t : String, detect_bin_dir_underscore "linux" ["opt", "conda"] =
      detect_bin_dir_specLayout "linux" ["opt", "conda"] t := by
  rintro ⟨t, h⟩
  rw [detect_bin_dir_underscore, detect_bin_dir_specLayout,
    if_neg (by decide), if_neg (by decide)] at h
  simp at h

/-- C7 amended: the executable directory is the data root plus a final
bin component, the data root being Library/share/osdag_latex_env under
the prefix on Windows and share/osdag_latex_env otherwise, with no
architecture-triple component. -/
theorem bin_dir_layout_amended (sys : String) (p : LPath) :
    detect_bin_dir_underscore sys p =
      detect_tex_root_underscore sys p ++ ["bin"] ∧
    (sys = "windows" → detect_tex_root_underscore sys p =
      p ++ ["Library", "share", "osdag_latex_env"]) ∧
    (sys ≠ "windows" → detect_tex_root_underscore sys p =
      p ++ ["share", "osdag_latex_env"]) := by
  by_cases h : sys = "windows"
  · refine ⟨?_, fun _ => ?_, fun hc => absurd h hc⟩
    · rw [detect_bin_dir_underscore, detect_tex_root_underscore,
        if_pos h, if_pos h]
      simp
    · rw [detect_tex_root_underscore, if_pos h]
  · refine ⟨?_, fun hc => absurd hc h, fun _ => ?_⟩
    · rw [detect_bin_dir_underscore, detect_tex_root_underscore,
        if_neg h, if_neg h]
      simp
    · rw [detect_tex_root_underscore, if_neg h]

/-- Witness for the amended C7: the Windows data root on a concrete
prefix. -/
theorem bin_dir_layout_amended_witness :
    detect_tex_root_underscore "windows" ["opt", "conda"] =
      ["opt", "conda"] ++ ["Library", "share", "osdag_latex_env"] :=
  (bin_dir_layout_amended "windows" ["opt", "conda"]).2.1 rfl

/-- C8 counterexample: the cited available property is true on an
instance whose registry holds only bibtex, although the primary
executable is not resolved, so it cannot equal the spec's strict
condition whatever the data-root and version-probe outcomes. -/
theorem available_without_strict_probe :
    bibOnlyEnv.available = true ∧ bibOnlyEnv.has "pdflatex" = false ∧
    availableStrictSpec true true bibOnlyEnv = false := by
  refine ⟨by decide, by decide, by decide⟩

/-- C8 amended: in the code the available property is the simple
variant: true exactly when the registry is non-empty, with no data-root
check and no version-query spawn. -/
theorem available_simple_amended (p : LPath) (sys : String)
    (fs : BinDirState) :
    (OsdagLatexEnv.constructUnderscore p sys fs).available = true ↔
      (OsdagLatexEnv.constructUnderscore p sys fs).bin ≠ [] := by
  rw [OsdagLatexEnv.available]
  generalize (OsdagLatexEnv.constructUnderscore p sys fs).bin = b
  cases b with
  | nil => simp
  | cons kv d => simp

/-- C9: configure_tex overwrites TEXMFHOME with the texmf-dist path,
rebinds TEXINPUTS to the three semicolon-joined style-package
directories, a semicolon, the texmf-dist path, os.pathsep, and the
previous TEXINPUTS value (preserved as a suffix, not overwritten), and
leaves every other environment variable unchanged. -/
theorem configure_tex_effect (e : OsdagLatexEnv) (os : OsParams)
    (env : Env) :
    (e.configure_tex os env) "TEXMFHOME" =
      some (renderPath os.dirSep (e.tex_root ++ ["texmf-dist"])) ∧
    (e.configure_tex os env) "TEXINPUTS" =
      some (String.intercalate ";"
          [replaceBackslash (renderPath os.dirSep
              (e.tex_root ++ ["texmf-dist", "tex", "latex"])) ++ "/amsmath",
           replaceBackslash (renderPath os.dirSep
              (e.tex_root ++ ["texmf-dist", "tex", "latex"])) ++ "/graphics",
           replaceBackslash (renderPath os.dirSep
              (e.tex_root ++ ["texmf-dist", "tex", "latex"])) ++ "/needspace"]
        ++ ";" ++ renderPath os.dirSep (e.tex_root ++ ["texmf-dist"])
        ++ os.pathSep ++ ((env "TEXINPUTS").getD "")) ∧
    (∀ k, k ≠ "TEXMFHOME" → k ≠ "TEXINPUTS" →
      (e.configure_tex os env) k = env k) := by
  refine ⟨?_, ?_, ?_⟩
  · simp [OsdagLatexEnv.configure_tex, envSet]
  · simp [OsdagLatexEnv.configure_tex, envSet, String.append_assoc]
  · intro k h1 h2
    simp [OsdagLatexEnv.configure_tex, envSet, h1, h2]

/-- Witness for C9: an unrelated variable such as PATH keeps its value
through configure_tex on a concrete instance and environment. -/
theorem configure_tex_effect_witness :
    (sampleEnv.configure_tex { pathSep := ":", dirSep := "/" }
        sampleProcEnv) "PATH" = sampleProcEnv "PATH" :=
  (configure_tex_effect sampleEnv { pathSep := ":", dirSep := "/" }
    sampleProcEnv).2.2 "PATH" (by decide) (by decide)

/-- C10: every registry entry is keyed by the lowercase extension-
stripped stem of a regular file of the directory and stores its path;
looking a key up returns the path of the last enumerated file with that
stem, so colliding stems keep a single entry and the registry can hold
strictly fewer entries than the directory holds files, as collideFs
shows (tool.exe then tool.bat collapse to one entry holding tool.bat). -/
theorem registry_last_wins :
    (∀ (binDir : LPath) (fs : BinDirState), fs.dirExists = true →
      ((∀ kv ∈ discover_binaries binDir fs, ∃ en, en ∈ fs.entries ∧
          en.isFile = true ∧ kv.1 = pyLower (pyStem en.name) ∧
          kv.2 = binDir ++ [en.name]) ∧
       (∀ k, dictGet? (discover_binaries binDir fs) k =
          (lastStemMatch k fs.entries).map
            (fun en => binDir ++ [en.name])))) ∧
    (discover_binaries ["b"] collideFs).length <
      collideFs.entries.length ∧
    dictGet? (discover_binaries ["b"] collideFs) "tool" =
      some ["b", "tool.bat"] := by
  refine ⟨fun binDir fs hex =>
    ⟨?_, fun k => discover_lookup binDir fs k hex⟩, by decide, by decide⟩
  intro kv hkv
  rw [discover_binaries, hex] at hkv
  simp only [Bool.not_true, Bool.false_eq_true, if_false] at hkv
  rcases discoverLoop_mem hkv with h0 | ⟨en, hm, hf, h1, h2⟩
  · cases h0
  · exact ⟨en, hm, hf, h1, h2⟩

/-- Witness for C10: on the colliding directory the registry maps the
shared stem to the last enumerated file. -/
theorem registry_last_wins_witness :
    dictGet? (discover_binaries ["b"] collideFs) "tool" =
      (lastStemMatch "tool" collideFs.entries).map
        (fun en => ["b"] ++ [en.name]) :=
  (registry_last_wins.1 ["b"] collideFs rfl).2 "tool"
